import Mathlib

/-!
Verification development for the VoxCoder realtime speak→code→run pipeline.

The Lean definitions below are a shallow embedding of the repository's
Python sources:
  * `executor.py`  — the local execution sandbox (`execute_python`,
    `_run_script`, `_pip_install`, the script template, output
    demultiplexing, missing-module detection and the install-and-retry);
  * `server.py`    — the per-connection WebSocket session (cost ledger,
    the `end` / `run_code` command handlers, per-block dispatch);
  * `transcriber.py` — the pushed audio stream and the transcription
    consumer;
  * `agent.py`     — the markdown code-block extraction and
    classification in `_parse_response`.

External effects (child processes, pip, the transcription service, the
assistant service) are modelled as oracles supplied as explicit inputs,
so every definition is executable and every run of the embedded code is
a pure function of those inputs.
-/

namespace VoxCoder

/- ### Character / string primitives mirroring the Python `str` methods -/

/-- Newline character, written via its code point. -/
def nlc : Char := Char.ofNat 10

/-- Backtick character (code point 96). -/
def btick : Char := Char.ofNat 96

/-- Python `str.strip` / `str.splitlines` whitespace set (space, tab,
newline, carriage return, vertical tab, form feed). -/
def isWS (c : Char) : Bool :=
  c.toNat = 32 || c.toNat = 9 || c.toNat = 10 || c.toNat = 13 ||
  c.toNat = 11 || c.toNat = 12

/-- Strip leading and trailing whitespace from a character list
(Python `str.strip()`). -/
def trimChars (l : List Char) : List Char :=
  ((l.dropWhile isWS).reverse.dropWhile isWS).reverse

/-- Python `str.strip()` on a `String`. -/
def pytrim (s : String) : String := String.mk (trimChars s.data)

/-- Split a character list at every occurrence of a separator character
(Python `str.split(sep)` for a one-character separator). -/
def splitChar (sep : Char) : List Char → List (List Char)
  | [] => [[]]
  | c :: cs =>
    if c = sep then [] :: splitChar sep cs
    else
      match splitChar sep cs with
      | [] => [[c]]
      | p :: ps => (c :: p) :: ps

/-- Python `str.splitlines()` restricted to `\n` boundaries: like
splitting on `\n` but an empty final fragment (text ending in a newline,
or the empty string) yields no extra line. -/
def splitlinesL (l : List Char) : List (List Char) :=
  let parts := splitChar nlc l
  match parts.getLast? with
  | some [] => parts.dropLast
  | _ => parts

/-- Join character lists with a separator (Python `sep.join(...)`). -/
def joinWith (sep : List Char) : List (List Char) → List Char
  | [] => []
  | [x] => x
  | x :: xs => x ++ sep ++ joinWith sep xs

/-- `true` iff `pat` occurs as a contiguous sublist (Python `pat in s`). -/
def containsSub (pat : List Char) : List Char → Bool
  | [] => pat.isEmpty
  | c :: cs => pat.isPrefixOf (c :: cs) || containsSub pat cs

/-- ASCII lower-casing of one character (Python `str.lower` on ASCII). -/
def charLower (c : Char) : Char :=
  if 65 ≤ c.toNat ∧ c.toNat ≤ 90 then Char.ofNat (c.toNat + 32) else c

/-- Python `str.lower()` (ASCII range). -/
def lowerStr (s : String) : String := String.mk (s.data.map charLower)

/- ### `executor.py`: missing-module detection -/

/-- The literal prefix of the regex
`ModuleNotFoundError: No module named '([^']+)'` from `_run_script`. -/
def MODULE_PAT : List Char := ("ModuleNotFoundError: No module named '").data

/-- The quote character terminating the regex capture group. -/
def quoteC : Char := Char.ofNat 39

/-- The dot separating sub-module path segments. -/
def dotC : Char := Char.ofNat 46

/-- Try to match `ModuleNotFoundError: No module named '([^']+)'` at the
head of `s`; on success return the capture group. The capture is the
maximal run of non-quote characters and must be non-empty and followed
by a closing quote, exactly as the regex requires. -/
def matchNameAt (s : List Char) : Option (List Char) :=
  if MODULE_PAT.isPrefixOf s then
    let rest := s.drop MODULE_PAT.length
    let name := rest.takeWhile (fun c => c ≠ quoteC)
    if name.isEmpty then none
    else if (rest.drop name.length).isEmpty then none
    else some name
  else none

/-- `re.search` of the missing-module regex: try every position left to
right and return the first capture. -/
def searchModule : List Char → Option (List Char)
  | [] => none
  | c :: cs =>
    match matchNameAt (c :: cs) with
    | some r => some r
    | none => searchModule cs

/-- `_run_script`'s missing-package detection: regex-search stderr and
keep only the top-level package name, the segment before the first `.`
(`m.group(1).split(".")[0]`). -/
def detectMissing (stderr : String) : Option String :=
  (searchModule stderr.data).map (fun nm => String.mk ((splitChar dotC nm).headD []))

/- ### `executor.py`: the script template and process spawn -/

/-- `_SCRIPT_TPL` up to (and including the newline before) the
`{user_code}` slot. -/
def tplHead : String :=
  String.intercalate "\n"
    [ "import sys as _sys, io as _io, base64 as _b64, warnings as _w"
    , "_w.filterwarnings(\"ignore\")"
    , ""
    , "# Force Agg backend before any user import of matplotlib"
    , "try:"
    , "    import matplotlib as _mpl"
    , "    _mpl.use(\"Agg\")"
    , "    import matplotlib.pyplot as _plt"
    , "    _HAS_MPL = True"
    , "except ImportError:"
    , "    _HAS_MPL = False"
    , ""
    , "# ── User code ──────────────────────────────────────────────────────"
    , "" ]

/-- `_SCRIPT_TPL` after the `{user_code}` slot. -/
def tplTail : String :=
  String.intercalate "\n"
    [ ""
    , "# ── End user code ──────────────────────────────────────────────────"
    , ""
    , "# Export all open matplotlib figures via stderr (separate from text output)"
    , "if _HAS_MPL:"
    , "    for _n in _plt.get_fignums():"
    , "        _fig = _plt.figure(_n)"
    , "        _buf = _io.BytesIO()"
    , "        _fig.savefig(_buf, format=\"png\", bbox_inches=\"tight\", dpi=150)"
    , "        _buf.seek(0)"
    , "        _img = _b64.b64encode(_buf.read()).decode()"
    , "        _sys.stderr.write(\"__IMAGE__:data:image/png;base64,\" + _img + \"\\n\")"
    , "        _plt.close(_fig)"
    , "" ]

/-- `_SCRIPT_TPL.format(user_code=code)`: the source actually written to
the temporary file — the user code wrapped in the Python harness. -/
def scriptFor (code : String) : String := tplHead ++ code ++ tplTail

/-- The argv of the child process spawned by `_run_script`:
`create_subprocess_exec(sys.executable, tmp.name)` — always the Python
interpreter on the temporary harness file, for every invocation. -/
def sandboxArgv (pythonExe tmpName : String) : List String := [pythonExe, tmpName]

/- ### `executor.py`: one run of `_run_script` -/

/-- `TIMEOUT_SECS = 30`. -/
def TIMEOUT_SECS : Nat := 30

/-- What the child process did on one invocation of `_run_script`:
either it finished with the given channels and exit code, or it hit the
wall-clock timeout. -/
inductive RawRun where
  | completed (stdout stderr : String) (returncode : Int)
  | timedOut
deriving DecidableEq

/-- The tuple `(stdout, stderr, ok, missing_pkg)` returned by
`_run_script`. -/
structure RunResult where
  stdout : String
  stderr : String
  ok : Bool
  missing : Option String
deriving DecidableEq

/-- `_run_script`: on timeout kill the child, discard output and report
the timeout message; otherwise decode the channels, set
`ok = (returncode == 0)` and, only when not ok, regex-search stderr for
a missing module. -/
def runScript : RawRun → RunResult
  | RawRun.timedOut =>
    { stdout := ""
    , stderr := "Execution timed out after " ++ toString TIMEOUT_SECS ++ "s"
    , ok := false
    , missing := none }
  | RawRun.completed out err rc =>
    if rc = 0 then
      { stdout := out, stderr := err, ok := true, missing := none }
    else
      { stdout := out, stderr := err, ok := false, missing := detectMissing err }

/- ### `executor.py`: `execute_python` -/

/-- `ExecResult` from `executor.py`. -/
structure ExecResult where
  stdout : String := ""
  images : List String := []
  error : String := ""
  installed : List String := []
deriving DecidableEq

/-- The stderr image marker `__IMAGE__:`. -/
def imgMark : List Char := ("__IMAGE__:").data

/-- The output demultiplexing at the end of `execute_python`: stdout is
stripped; each stderr line starting with the image marker becomes an
image entry with the marker removed; the remaining stderr lines are
joined and stripped into `error`, but only when the run was not ok and
at least one such line exists. -/
def demux (r : RunResult) (installed : List String) : ExecResult :=
  let lines := splitlinesL r.stderr.data
  { stdout := pytrim r.stdout
  , images := (lines.filter (fun l => imgMark.isPrefixOf l)).map
      (fun l => String.mk (l.drop imgMark.length))
  , error :=
      if r.ok = false ∧ lines.filter (fun l => !(imgMark.isPrefixOf l)) ≠ [] then
        String.mk (trimChars (joinWith [nlc] (lines.filter (fun l => !(imgMark.isPrefixOf l)))))
      else ""
  , installed := installed }

/-- The environment `execute_python` runs in: the outcome of the `i`-th
`_run_script` invocation and the success of `pip install` per package. -/
structure Env where
  runs : Nat → RawRun
  installOk : String → Bool

/-- A run of `execute_python` together with how many `_run_script`
invocations and how many install attempts it performed. -/
structure ExecTrace where
  result : ExecResult
  runCount : Nat
  installCount : Nat

/-- `execute_python`: run the harness once; `if missing:` — a detected
package whose extracted name is non-empty (Python truthiness: `None`
and the empty string are both falsy) — attempt exactly one install and,
only on install success, re-run the harness once and use the second
run's channels; finally demultiplex the channels of whichever run is
current. -/
def executePython (env : Env) : ExecTrace :=
  let r0 := runScript (env.runs 0)
  match r0.missing with
  | some pkg =>
    if pkg = "" then { result := demux r0 [], runCount := 1, installCount := 0 }
    else if env.installOk pkg then
      let r1 := runScript (env.runs 1)
      { result := demux r1 [pkg], runCount := 2, installCount := 1 }
    else
      { result := demux r0 [], runCount := 1, installCount := 1 }
  | none => { result := demux r0 [], runCount := 1, installCount := 0 }

/- ### `transcriber.py`: the pushed audio stream (`AudioStream`) -/

/-- A PCM audio chunk (the bytes pushed over the socket). -/
abbrev Chunk := List Nat

/-- The contents of the `asyncio.Queue[bytes | None]` backing
`AudioStream`, in FIFO order; `none` is the end sentinel. -/
abbrev AudioQueue := List (Option Chunk)

/-- `AudioStream.push`: append a chunk at the tail of the queue. -/
def pushChunk (q : AudioQueue) (c : Chunk) : AudioQueue := q ++ [some c]

/-- `AudioStream.end`: append the `None` sentinel at the tail. -/
def endStream (q : AudioQueue) : AudioQueue := q ++ [none]

/-- The consuming iteration (`__anext__` until `StopAsyncIteration`):
take chunks in FIFO order and stop at the first sentinel. -/
def consumeStream : AudioQueue → List Chunk
  | [] => []
  | none :: _ => []
  | some c :: rest => c :: consumeStream rest

/- ### `server.py`: frames, prices and the cost ledger -/

/-- Per-unit prices from `server.py`, as exact rationals:
`0.006` per STT minute, `2e-6` / `6e-6` per input/output token,
`0.03` per code-interpreter execution. -/
def PRICE_STT_PER_MIN : ℚ := 6 / 1000

/-- `PRICE_INPUT_PER_TOKEN = 2.0 / 1_000_000`. -/
def PRICE_INPUT_PER_TOKEN : ℚ := 2 / 1000000

/-- `PRICE_OUTPUT_PER_TOKEN = 6.0 / 1_000_000`. -/
def PRICE_OUTPUT_PER_TOKEN : ℚ := 6 / 1000000

/-- `PRICE_CODE_EXEC = 0.03`. -/
def PRICE_CODE_EXEC : ℚ := 3 / 100

/-- The `request` object of a `cost` frame (`_send_costs`), with the
monetary fields kept as exact rationals. -/
structure CostReq where
  audio_sec : ℚ
  input_tokens : Nat
  output_tokens : Nat
  code_executions : Nat
  stt_cost : ℚ
  agent_cost_in : ℚ
  agent_cost_out : ℚ
  exec_cost : ℚ
  total : ℚ
deriving DecidableEq

/-- The `session` object of a `cost` frame (`_send_costs`). -/
structure CostSess where
  audio_minutes : ℚ
  input_tokens : Nat
  output_tokens : Nat
  code_executions : Nat
  stt_cost : ℚ
  agent_cost_in : ℚ
  agent_cost_out : ℚ
  exec_cost : ℚ
  total : ℚ
deriving DecidableEq

/-- The cumulative `totals` dict of one WebSocket session. -/
structure Totals where
  stt_cost : ℚ := 0
  input_tokens : Nat := 0
  output_tokens : Nat := 0
  agent_cost_in : ℚ := 0
  agent_cost_out : ℚ := 0
  code_executions : Nat := 0
  exec_cost : ℚ := 0
  total_cost : ℚ := 0
  audio_minutes : ℚ := 0
deriving DecidableEq

/-- The `session` part of a cost frame is a snapshot of the totals dict
(`_send_costs` reads every field from `totals`). -/
def sessSnapshot (t : Totals) : CostSess :=
  { audio_minutes := t.audio_minutes
  , input_tokens := t.input_tokens
  , output_tokens := t.output_tokens
  , code_executions := t.code_executions
  , stt_cost := t.stt_cost
  , agent_cost_in := t.agent_cost_in
  , agent_cost_out := t.agent_cost_out
  , exec_cost := t.exec_cost
  , total := t.total_cost }

/-- The typed server→client frames sent over the WebSocket. -/
inductive Frame where
  | status (status message : String)
  | transcriptDelta (text : String)
  | transcript (text : String)
  | code (language content : String)
  | output (content : String)
  | image (data : String)
  | message (text : String)
  | cost (request : CostReq) (session : CostSess)
deriving DecidableEq

/- ### `server.py` / `agent.py`: agent response data -/

/-- A code block as parsed from the agent response. -/
structure CodeBlock where
  language : String
  content : String
deriving DecidableEq

/-- `UsageInfo` from `agent.py`. -/
structure Usage where
  prompt_tokens : Nat := 0
  completion_tokens : Nat := 0
  total_tokens : Nat := 0
  code_executions : Nat := 0
deriving DecidableEq

/-- The parts of `AgentResponse` the server consumes. -/
structure AgentResp where
  text : String := ""
  code_blocks : List CodeBlock := []
  usage : Usage := {}

/-- Outcome of the `chat(...)` call in the `end` handler: a parsed
response, or an exception (caught and reported as `Agent error: ...`). -/
inductive AgentCall where
  | ok (resp : AgentResp)
  | fail (msg : String)

/- ### `server.py`: per-block dispatch and execution frames -/

/-- `EXEC_LANGS = {"python", "py", "bash", "sh"}`. -/
def EXEC_LANGS : List String := ["python", "py", "bash", "sh"]

/-- The lowercased language tag used for dispatch
(`block.get("language", "python").lower()`). -/
def blockLang (b : CodeBlock) : String := lowerStr b.language

/-- The frames the server emits for one `ExecResult`
(`Auto-installed` message, stdout, images, `[stderr]` output). -/
def execFrames (r : ExecResult) : List Frame :=
  (if r.installed ≠ [] then
    [Frame.message ("Auto-installed: " ++
      String.mk (joinWith (", ").data (r.installed.map String.data)))]
   else []) ++
  (if r.stdout ≠ "" then [Frame.output r.stdout] else []) ++
  r.images.map Frame.image ++
  (if r.error ≠ "" then [Frame.output ("[stderr]\n" ++ r.error)] else [])

/-- The body of the per-block loop in the `end` handler: always emit the
`code` frame; when the lowercased tag is executable, emit the
`executing` status, run the sandbox on the block content and emit its
frames. Returns the frames and the list of sources handed to the
sandbox. The sandbox outcome is the oracle `exec`. -/
def processBlock (exec : String → ExecResult) (b : CodeBlock) :
    List Frame × List String :=
  let lang := blockLang b
  if EXEC_LANGS.contains lang then
    (Frame.code lang b.content :: Frame.status "executing" "Executing code…" ::
       execFrames (exec b.content), [b.content])
  else ([Frame.code lang b.content], [])

/- ### `server.py`: the `run_code` handler -/

/-- The `run_code` command handler: strip the code; if empty, send the
ready status and do nothing else; otherwise run the sandbox on the
stripped source and emit its frames. Returns the frames and the number
of sandbox invocations. -/
def handleRunCode (exec : String → ExecResult) (code lang : String) :
    List Frame × Nat :=
  let c := pytrim code
  let _lang := lowerStr lang
  if c = "" then ([Frame.status "ready" "Ready"], 0)
  else
    (Frame.status "executing" "Executing code…" :: execFrames (exec c) ++
       [Frame.status "ready" "Ready"], 1)

/- ### `server.py` / `transcriber.py`: the transcription consumer -/

/-- An event of the realtime transcription stream as `transcribe_stream`
sees it: a text delta, the service's terminal error event, or any other
event type (ignored). -/
inductive TEvent where
  | delta (s : String)
  | terminalError (msg : String)
  | other
deriving DecidableEq

/-- `transcribe_stream` composed with `_run_transcription`: each
non-empty delta is appended to `transcript_parts` and sent as a
`transcript_delta` frame; a terminal error event raises a
`RuntimeError`, which `_run_transcription` catches and converts into an
`error` status frame, ending the task. Returns the accumulated parts
and the frames sent. -/
def runTranscription : List TEvent → List String × List Frame
  | [] => ([], [])
  | TEvent.delta s :: rest =>
    if s = "" then runTranscription rest
    else
      let o := runTranscription rest
      (s :: o.1, Frame.transcriptDelta s :: o.2)
  | TEvent.terminalError m :: _ =>
    ([], [Frame.status "error" ("Realtime transcription error: " ++ m)])
  | TEvent.other :: rest => runTranscription rest

/-- `true` iff the event list contains no terminal error event. -/
def noTerminalError : List TEvent → Bool
  | [] => true
  | TEvent.terminalError _ :: _ => false
  | _ :: rest => noTerminalError rest

/-- The non-empty deltas of an event list, in order. -/
def nonEmptyDeltas : List TEvent → List String
  | [] => []
  | TEvent.delta s :: rest =>
    if s = "" then nonEmptyDeltas rest else s :: nonEmptyDeltas rest
  | _ :: rest => nonEmptyDeltas rest

/- ### `server.py`: removal of fenced code from the chat message -/

/-- Search for the first occurrence of `pat` and return the remainder
after it, if any. -/
def dropAfterSub (pat : List Char) : List Char → Option (List Char)
  | [] => none
  | c :: cs =>
    if pat.isPrefixOf (c :: cs) then some ((c :: cs).drop pat.length)
    else dropAfterSub pat cs

/-- The triple-backtick fence. -/
def fenceL : List Char := [btick, btick, btick]

/-- Fuel-driven body of `re.sub(r"(three backticks).*?(three backticks)", "", text)`:
whenever a fence with a later closing fence starts here, delete through
the closing fence and continue; otherwise keep the character and move
on. -/
def removeFencesFuel : Nat → List Char → List Char
  | 0, l => l
  | _ + 1, [] => []
  | fuel + 1, c :: cs =>
    if fenceL.isPrefixOf (c :: cs) then
      match dropAfterSub fenceL ((c :: cs).drop fenceL.length) with
      | some rest => removeFencesFuel fuel rest
      | none => c :: removeFencesFuel fuel cs
    else c :: removeFencesFuel fuel cs

/-- `re.sub` of fenced blocks with enough fuel to consume the input. -/
def removeFences (l : List Char) : List Char := removeFencesFuel (l.length + 1) l

/- ### `server.py`: the `end` command handler -/

/-- One recording span as the `end` handler sees it: the elapsed
duration in minutes, the accumulated transcript parts, and what the
agent call would return if issued. -/
structure Recording where
  mins : ℚ
  parts : List String
  agent : AgentCall

/-- Result of handling one `end` command. -/
structure EndOut where
  totals : Totals
  frames : List Frame
  agentCalled : Bool

/-- The `end` handler from `websocket_endpoint`: update the audio/STT
totals; if the stripped concatenated transcript is empty, emit the
"No speech detected" ready status and a cost frame built from the
request's audio cost alone (note: `totals["total_cost"]` is NOT
recomputed on this path) and stop without calling the agent. Otherwise
emit the transcript and thinking status and call the agent: on failure
emit an `Agent error` status and stop; on success process each code
block, emit the cleaned chat message, update all cumulative totals,
recompute `total_cost`, and emit the cost frame and ready status. -/
def handleEnd (t : Totals) (exec : String → ExecResult) (r : Recording) : EndOut :=
  let stt := r.mins * PRICE_STT_PER_MIN
  let t1 := { t with
    audio_minutes := t.audio_minutes + r.mins
    stt_cost := t.stt_cost + stt }
  let full := pytrim (String.mk (joinWith [] (r.parts.map String.data)))
  if full = "" then
    { totals := t1
    , frames := [ Frame.status "ready" "No speech detected"
                , Frame.cost
                    { audio_sec := r.mins * 60, input_tokens := 0, output_tokens := 0
                    , code_executions := 0, stt_cost := stt, agent_cost_in := 0
                    , agent_cost_out := 0, exec_cost := 0
                    , total := stt + 0 + 0 + 0 }
                    (sessSnapshot t1) ]
    , agentCalled := false }
  else
    match r.agent with
    | AgentCall.fail m =>
      { totals := t1
      , frames := [ Frame.transcript full
                  , Frame.status "thinking" "Agent is thinking…"
                  , Frame.status "error" ("Agent error: " ++ m) ]
      , agentCalled := true }
    | AgentCall.ok resp =>
      let blockFrames := (resp.code_blocks.map (fun b => (processBlock exec b).1)).flatten
      let cleanText := pytrim (String.mk (removeFences resp.text.data))
      let msgFrames :=
        if resp.text = "" then []
        else if cleanText ≠ "" then [Frame.message cleanText]
        else if resp.code_blocks.isEmpty then [Frame.message resp.text]
        else []
      let u := resp.usage
      let rin := (u.prompt_tokens : ℚ) * PRICE_INPUT_PER_TOKEN
      let rout := (u.completion_tokens : ℚ) * PRICE_OUTPUT_PER_TOKEN
      let rex := (u.code_executions : ℚ) * PRICE_CODE_EXEC
      let t2 := { t1 with
        input_tokens := t1.input_tokens + u.prompt_tokens
        output_tokens := t1.output_tokens + u.completion_tokens
        agent_cost_in := t1.agent_cost_in + rin
        agent_cost_out := t1.agent_cost_out + rout
        code_executions := t1.code_executions + u.code_executions
        exec_cost := t1.exec_cost + rex }
      let t3 := { t2 with
        total_cost := t2.stt_cost + t2.agent_cost_in + t2.agent_cost_out + t2.exec_cost }
      { totals := t3
      , frames := Frame.transcript full :: Frame.status "thinking" "Agent is thinking…" ::
          blockFrames ++ msgFrames ++
          [ Frame.cost
              { audio_sec := r.mins * 60, input_tokens := u.prompt_tokens
              , output_tokens := u.completion_tokens, code_executions := u.code_executions
              , stt_cost := stt, agent_cost_in := rin, agent_cost_out := rout
              , exec_cost := rex, total := stt + rin + rout + rex }
              (sessSnapshot t3)
          , Frame.status "ready" "Ready" ]
      , agentCalled := true }

/-- The initial totals dict of a fresh session (all zero). -/
def initTotals : Totals := {}

/-- A whole session: fold `handleEnd` over the recordings, starting from
the zero totals, concatenating the emitted frames. -/
def runSession (exec : String → ExecResult) (recs : List Recording) :
    Totals × List Frame :=
  recs.foldl
    (fun acc r =>
      let o := handleEnd acc.1 exec r
      (o.totals, acc.2 ++ o.frames))
    (initTotals, [])

/-- The `(request.total, session.total)` pairs of a frame list's cost
frames, in order. -/
def costPairs (fs : List Frame) : List (ℚ × ℚ) :=
  fs.filterMap (fun f =>
    match f with
    | Frame.cost req sess => some (req.total, sess.total)
    | _ => none)

/- ### `agent.py`: markdown code-block extraction and classification -/

/-- `\w` of the code-fence regex (ASCII letters, digits, underscore). -/
def isWordChar (c : Char) : Bool := c.isAlphanum || c.toNat = 95

/-- Find the first closing fence: split `l` at the first occurrence of
three backticks, returning the text before it and the text after it. -/
def splitAtFence : List Char → Option (List Char × List Char)
  | [] => none
  | c :: cs =>
    if fenceL.isPrefixOf (c :: cs) then some ([], (c :: cs).drop fenceL.length)
    else
      match splitAtFence cs with
      | some (b, a) => some (c :: b, a)
      | none => none

/-- Fuel-driven scan of `re.findall` with the block pattern
(fence, optional `\w+` tag, greedy `\s*`, optional newline, lazy body,
closing fence): at a fence, read the maximal word-character tag, skip
whitespace, and capture up to the first closing fence; a fence with no
closing fence does not match and scanning resumes one character later. -/
def scanBlocksFuel : Nat → List Char → List (String × String)
  | 0, _ => []
  | _ + 1, [] => []
  | fuel + 1, c :: cs =>
    if fenceL.isPrefixOf (c :: cs) then
      let rest := (c :: cs).drop fenceL.length
      let langChars := rest.takeWhile isWordChar
      let rest2 := (rest.drop langChars.length).dropWhile isWS
      match splitAtFence rest2 with
      | some (body, after) =>
        (String.mk langChars, String.mk body) :: scanBlocksFuel fuel after
      | none => scanBlocksFuel fuel cs
    else scanBlocksFuel fuel cs

/-- The `re.findall(r"(fence)(\w+)?\s*\n?(.*?)(fence)", full_text, re.DOTALL)`
capture list. -/
def scanBlocks (l : List Char) : List (String × String) :=
  scanBlocksFuel (l.length + 1) l

/-- `true` iff the lowercased content contains `<html>` or `<div>`. -/
def hasHtmlMarker (code : String) : Bool :=
  containsSub ("<html>").data (lowerStr code).data ||
  containsSub ("<div>").data (lowerStr code).data

/-- The body of the classification loop in `_parse_response`: lowercase
the tag and strip the body; an untagged block is classified `html` when
its content carries an HTML marker and `python` otherwise; a block whose
content equals an already-collected block's content is skipped. -/
def classifyAndAdd (acc : List CodeBlock) (p : String × String) : List CodeBlock :=
  let lang0 := lowerStr p.1
  let code := pytrim p.2
  let lang :=
    if lang0 = "" then (if hasHtmlMarker code then "html" else "python")
    else lang0
  if acc.any (fun b => b.content == code) then acc
  else acc ++ [{ language := lang, content := code }]

/-- The markdown phase of `_parse_response`: extract the fenced blocks
of the full text and fold them through the classification loop, on top
of the blocks already collected from the structured response parts. -/
def parseTextBlocks (init : List CodeBlock) (full_text : String) : List CodeBlock :=
  (scanBlocks full_text.data).foldl classifyAndAdd init

/- ### Auxiliary predicates and concrete test fixtures -/

/-- Guard used to reason about `splitAtFence`: no suffix of `l`,
extended by a following fence, starts with a fence — so the first
closing fence after `l` is the one appended after it. -/
def cleanBody : List Char → Bool
  | [] => true
  | c :: cs => !(fenceL.isPrefixOf ((c :: cs) ++ fenceL)) && cleanBody cs

/-- A trivial sandbox oracle returning the all-empty `ExecResult`. -/
def wExec : String → ExecResult := fun _ => {}

/-- A concrete stderr text carrying the missing-module signature with a
dotted module path. -/
def wErrMsg : String := "ModuleNotFoundError: No module named 'sklearn.datasets'"

/-- Concrete environment: the first run fails with a missing module,
the second run succeeds; installs succeed. -/
def wEnv : Env :=
  { runs := fun n =>
      if n = 0 then RawRun.completed "" wErrMsg 1 else RawRun.completed "done" "" 0
  , installOk := fun _ => true }

/-- Concrete environment: every run times out. -/
def wEnvTimeout : Env :=
  { runs := fun _ => RawRun.timedOut, installOk := fun _ => false }

/-- Concrete environment: the first run fails with a missing-module
signature whose module path starts with a dot, so the extracted
top-level segment is the empty string; installs would succeed if
attempted. -/
def wEnvDot : Env :=
  { runs := fun _ => RawRun.completed "" "ModuleNotFoundError: No module named '.x'" 1
  , installOk := fun _ => true }

/-- A concrete stderr mixing an image-marker line with ordinary error
lines (and no missing-module signature). -/
def wStderrMix : String :=
  "__IMAGE__:data:image/png;base64,AAA\nTraceback boom\nValueError: bad"

/-- Concrete environment: the first run fails with mixed stderr. -/
def wEnvMix : Env :=
  { runs := fun _ => RawRun.completed "  hi \n" wStderrMix 1
  , installOk := fun _ => false }

/- ### Helper lemmas -/

/-- Folding `push` over a chunk list appends the chunks, wrapped in
`some`, at the tail of the queue. -/
theorem foldl_pushChunk (l : List Chunk) (q : AudioQueue) :
    l.foldl pushChunk q = q ++ l.map some := by
  induction l generalizing q with
  | nil => simp
  | cons c cs ih => simp [pushChunk, ih, List.append_assoc]

/-- Consuming a queue made of chunks followed by the sentinel yields
exactly the chunks, whatever sits behind the sentinel. -/
theorem consumeStream_append (cs : List Chunk) (rest : AudioQueue) :
    consumeStream (cs.map some ++ none :: rest) = cs := by
  induction cs with
  | nil => simp [consumeStream]
  | cons c cs ih => simp [consumeStream, ih]

/- ### C8: AudioStream FIFO semantics -/

/-- C8: every chunk pushed before `end()` is observed by the consumer
exactly once and in push order; iteration stops at the sentinel and
chunks pushed after `end()` are never observed. -/
theorem audioStream_fifo_exact (cs ds : List Chunk) :
    consumeStream (ds.foldl pushChunk (endStream (cs.foldl pushChunk []))) = cs := by
  rw [foldl_pushChunk cs, endStream, foldl_pushChunk ds]
  simpa [List.append_assoc] using consumeStream_append cs (ds.map some)

/- ### C9: empty `run_code` commands -/

/-- C9: a `run_code` command whose code strips to the empty string only
produces the ready status: no sandbox invocation and no output, image,
message or error frame. -/
theorem runCode_empty_ready (exec : String → ExecResult) (code lang : String)
    (h : pytrim code = "") :
    handleRunCode exec code lang = ([Frame.status "ready" "Ready"], 0) := by
  simp [handleRunCode, h]

/-- Witness for C9 at `code = "  \n  "`. -/
theorem runCode_empty_ready_witness :
    pytrim "  \n  " = "" ∧
    handleRunCode wExec "  \n  " "python" = ([Frame.status "ready" "Ready"], 0) :=
  ⟨by decide, runCode_empty_ready wExec "  \n  " "python" (by decide)⟩

/- ### C2: timeout is fatal and never retried -/

/-- C2: when the child process of the first run hits the wall-clock
timeout, the sandbox returns empty stdout and images, the timeout
message as the error, no installed packages, performs no install
attempt, and runs the harness exactly once (never a retry, never a
successful result). -/
theorem timeout_fatal (env : Env) (h : env.runs 0 = RawRun.timedOut) :
    (executePython env).result =
      { stdout := "", images := [], error := "Execution timed out after 30s"
      , installed := [] } ∧
    (executePython env).runCount = 1 ∧
    (executePython env).installCount = 0 := by
  have e1 : executePython env =
      { result := demux (runScript RawRun.timedOut) [], runCount := 1, installCount := 0 } := by
    unfold executePython
    rw [h]
    rfl
  rw [e1]
  refine ⟨?_, rfl, rfl⟩
  decide

/-- Witness for C2: the always-timing-out environment. -/
theorem timeout_fatal_witness :
    wEnvTimeout.runs 0 = RawRun.timedOut ∧
    ((executePython wEnvTimeout).result =
      { stdout := "", images := [], error := "Execution timed out after 30s"
      , installed := [] } ∧
     (executePython wEnvTimeout).runCount = 1 ∧
     (executePython wEnvTimeout).installCount = 0) :=
  ⟨rfl, timeout_fatal wEnvTimeout rfl⟩

/- ### C1: missing-module install-and-retry -/

/-- Counterexample for C1 as stated: the first run exits non-zero with
the missing-module signature `No module named '.x'`, whose extracted
top-level segment (before the first dot) is the empty string; Python's
`if missing:` is then false, so the program performs zero install
attempts — not exactly one — and returns the original run's result
even though installs would have succeeded. -/
theorem emptyPkg_no_install :
    detectMissing "ModuleNotFoundError: No module named '.x'" = some "" ∧
    (executePython wEnvDot).installCount = 0 ∧
    (executePython wEnvDot).runCount = 1 ∧
    (executePython wEnvDot).result = demux (runScript (wEnvDot.runs 0)) [] := by
  refine ⟨by decide, by decide, by decide, by decide⟩

/-- C1 (amended): when the first run exits non-zero with the
missing-module signature, the extracted top-level package name governs
the retry. If it is non-empty, exactly one install attempt is made and,
on install success, the whole harness is re-run once and the second
run's demultiplexed result is returned with the package recorded in
`installed`, while on install failure the first run's result is
returned with `installed` empty. If the extracted name is empty (a
module path starting with a dot — `if missing:` is falsy), no install
is attempted and the first run's result is returned unchanged. In no
case does any environment see more than one install attempt or more
than two harness runs. -/
theorem autoInstall_exactly_once (env : Env) (out err : String) (rc : Int) (pkg : String)
    (h0 : env.runs 0 = RawRun.completed out err rc) (hrc : ¬ rc = 0)
    (hm : detectMissing err = some pkg) :
    (¬ pkg = "" →
      (executePython env).installCount = 1 ∧
      (env.installOk pkg = true →
        (executePython env).result = demux (runScript (env.runs 1)) [pkg] ∧
        (executePython env).runCount = 2) ∧
      (env.installOk pkg = false →
        (executePython env).result = demux (runScript (env.runs 0)) [] ∧
        (executePython env).runCount = 1)) ∧
    (pkg = "" →
      (executePython env).installCount = 0 ∧
      (executePython env).result = demux (runScript (env.runs 0)) [] ∧
      (executePython env).runCount = 1) ∧
    (∀ e : Env, (executePython e).installCount ≤ 1 ∧ (executePython e).runCount ≤ 2) := by
  have e0 : runScript (env.runs 0) =
      { stdout := out, stderr := err, ok := false, missing := some pkg } := by
    rw [h0]
    simp [runScript, hrc, hm]
  have ebounds : ∀ e : Env,
      (executePython e).installCount ≤ 1 ∧ (executePython e).runCount ≤ 2 := by
    intro e
    simp only [executePython]
    rcases hmiss : (runScript (e.runs 0)).missing with _ | p
    · simp
    · by_cases hp : p = ""
      · simp [hp]
      · by_cases hI : e.installOk p <;> simp [hp, hI]
  refine ⟨?_, ?_, ebounds⟩
  · intro hpkg
    refine ⟨?_, ?_, ?_⟩
    · simp only [executePython]
      rw [e0]
      by_cases hI : env.installOk pkg <;> simp [hpkg, hI]
    · intro hI
      simp only [executePython]
      rw [e0]
      simp [hpkg, hI]
    · intro hI
      simp only [executePython]
      rw [e0]
      simp [hpkg, hI]
  · intro hpkg
    simp only [executePython]
    rw [e0]
    simp [hpkg]

/-- Witness for C1 (amended): a run failing with
`ModuleNotFoundError: No module named 'sklearn.datasets'`; the
top-level package `sklearn` is extracted (non-empty) and installed, and
the second run's result is returned. -/
theorem autoInstall_exactly_once_witness :
    (wEnv.runs 0 = RawRun.completed "" wErrMsg 1 ∧ ¬ (1 : Int) = 0 ∧
      detectMissing wErrMsg = some "sklearn" ∧ ¬ "sklearn" = "") ∧
    ((¬ "sklearn" = "" →
      (executePython wEnv).installCount = 1 ∧
      (wEnv.installOk "sklearn" = true →
        (executePython wEnv).result = demux (runScript (wEnv.runs 1)) ["sklearn"] ∧
        (executePython wEnv).runCount = 2) ∧
      (wEnv.installOk "sklearn" = false →
        (executePython wEnv).result = demux (runScript (wEnv.runs 0)) [] ∧
        (executePython wEnv).runCount = 1)) ∧
     ("sklearn" = "" →
      (executePython wEnv).installCount = 0 ∧
      (executePython wEnv).result = demux (runScript (wEnv.runs 0)) [] ∧
      (executePython wEnv).runCount = 1) ∧
     (∀ e : Env, (executePython e).installCount ≤ 1 ∧ (executePython e).runCount ≤ 2)) :=
  ⟨⟨rfl, by decide, by decide, by decide⟩,
   autoInstall_exactly_once wEnv "" wErrMsg 1 "sklearn" rfl (by decide) (by decide)⟩

/- ### C3: output demultiplexing -/

/-- C3: for a run of `execute_python` (single-run path), stdout is the
child's stdout stripped of surrounding whitespace regardless of exit
status; the stderr lines starting with the image marker become, in
order, the image entries with the marker removed; and the error field is
the joined remaining stderr lines (stripped) exactly when the process
exited unsuccessfully and at least one such line exists, and empty
otherwise. The final conjunct states the per-run demultiplexing for
every run result. -/
theorem demux_output_channels (env : Env) (out err : String) (rc : Int)
    (h0 : env.runs 0 = RawRun.completed out err rc)
    (hm : detectMissing err = none) :
    ((executePython env).result.stdout = pytrim out ∧
     (executePython env).result.images =
       ((splitlinesL err.data).filter (fun l => imgMark.isPrefixOf l)).map
         (fun l => String.mk (l.drop imgMark.length)) ∧
     (executePython env).result.error =
       (if ¬ rc = 0 ∧ (splitlinesL err.data).filter (fun l => !(imgMark.isPrefixOf l)) ≠ [] then
          String.mk (trimChars (joinWith [nlc]
            ((splitlinesL err.data).filter (fun l => !(imgMark.isPrefixOf l)))))
        else "")) ∧
    (∀ (r : RunResult) (inst : List String),
       (demux r inst).stdout = pytrim r.stdout ∧
       (demux r inst).images =
         ((splitlinesL r.stderr.data).filter (fun l => imgMark.isPrefixOf l)).map
           (fun l => String.mk (l.drop imgMark.length)) ∧
       ((demux r inst).error ≠ "" → r.ok = false) ∧
       (demux r inst).installed = inst) := by
  have hgen : ∀ (r : RunResult) (inst : List String),
      (demux r inst).stdout = pytrim r.stdout ∧
      (demux r inst).images =
        ((splitlinesL r.stderr.data).filter (fun l => imgMark.isPrefixOf l)).map
          (fun l => String.mk (l.drop imgMark.length)) ∧
      ((demux r inst).error ≠ "" → r.ok = false) ∧
      (demux r inst).installed = inst := by
    intro r inst
    refine ⟨rfl, rfl, ?_, rfl⟩
    intro hne
    by_contra hok
    have hok' : r.ok = true := by
      cases hval : r.ok
      · exact absurd hval hok
      · rfl
    apply hne
    simp [demux, hok']
  refine ⟨?_, hgen⟩
  by_cases hrc : rc = 0
  · have e0 : runScript (env.runs 0) =
        { stdout := out, stderr := err, ok := true, missing := none } := by
      rw [h0]
      simp [runScript, hrc]
    have e1 : executePython env =
        { result := demux { stdout := out, stderr := err, ok := true, missing := none } []
        , runCount := 1, installCount := 0 } := by
      simp only [executePython, e0]
    rw [e1]
    refine ⟨rfl, rfl, ?_⟩
    simp [demux, hrc]
  · have e0 : runScript (env.runs 0) =
        { stdout := out, stderr := err, ok := false, missing := none } := by
      rw [h0]
      simp [runScript, hrc, hm]
    have e1 : executePython env =
        { result := demux { stdout := out, stderr := err, ok := false, missing := none } []
        , runCount := 1, installCount := 0 } := by
      simp only [executePython, e0]
    rw [e1]
    refine ⟨rfl, rfl, ?_⟩
    simp [demux, hrc]

/-- Witness for C3: a failing run whose stderr mixes one image-marker
line with two ordinary error lines. -/
theorem demux_output_channels_witness :
    (wEnvMix.runs 0 = RawRun.completed "  hi \n" wStderrMix 1 ∧
      detectMissing wStderrMix = none) ∧
    ((executePython wEnvMix).result.stdout = pytrim "  hi \n" ∧
     (executePython wEnvMix).result.images =
       ((splitlinesL wStderrMix.data).filter (fun l => imgMark.isPrefixOf l)).map
         (fun l => String.mk (l.drop imgMark.length)) ∧
     (executePython wEnvMix).result.error =
       (if ¬ (1 : Int) = 0 ∧
           (splitlinesL wStderrMix.data).filter (fun l => !(imgMark.isPrefixOf l)) ≠ [] then
          String.mk (trimChars (joinWith [nlc]
            ((splitlinesL wStderrMix.data).filter (fun l => !(imgMark.isPrefixOf l)))))
        else "")) ∧
    (∀ (r : RunResult) (inst : List String),
       (demux r inst).stdout = pytrim r.stdout ∧
       (demux r inst).images =
         ((splitlinesL r.stderr.data).filter (fun l => imgMark.isPrefixOf l)).map
           (fun l => String.mk (l.drop imgMark.length)) ∧
       ((demux r inst).error ≠ "" → r.ok = false) ∧
       (demux r inst).installed = inst) :=
  ⟨⟨rfl, by decide⟩,
   demux_output_channels wEnvMix "  hi \n" wStderrMix 1 rfl (by decide)⟩

/- ### C4: executable-tag dispatch and the interpreter actually used -/

/-- C4 (amended): every code block whose lowercased tag is in
`{python, py, bash, sh}` is handed to the ExecutionSandbox, and the
sandbox always runs the source wrapped in the Python harness under the
Python interpreter (`sys.executable` on the temp file), independent of
the tag; non-executable tags are never handed to the sandbox. -/
theorem execTag_dispatch_python_interp (exec : String → ExecResult)
    (b : CodeBlock) (py tmp : String) :
    (EXEC_LANGS.contains (blockLang b) = true →
      (processBlock exec b).2 = [b.content] ∧
      sandboxArgv py tmp = [py, tmp] ∧
      scriptFor b.content = tplHead ++ b.content ++ tplTail) ∧
    (EXEC_LANGS.contains (blockLang b) = false →
      (processBlock exec b).2 = []) := by
  constructor
  · intro h
    simp only [List.contains, List.elem_eq_mem, decide_eq_true_eq] at h
    refine ⟨?_, rfl, rfl⟩
    simp [processBlock, h]
  · intro h
    simp only [List.contains, List.elem_eq_mem, decide_eq_false_iff_not] at h
    simp [processBlock, h]

/-- Witness for C4 (amended): an upper-case `PY` tag is lowercased,
found executable, and dispatched to the sandbox. -/
theorem execTag_dispatch_python_interp_witness :
    EXEC_LANGS.contains (blockLang { language := "PY", content := "x=1" }) = true ∧
    ((processBlock wExec { language := "PY", content := "x=1" }).2 = ["x=1"] ∧
     sandboxArgv "/usr/bin/python3" "/tmp/vox.py" = ["/usr/bin/python3", "/tmp/vox.py"] ∧
     scriptFor "x=1" = tplHead ++ "x=1" ++ tplTail) :=
  ⟨by decide,
   (execTag_dispatch_python_interp wExec { language := "PY", content := "x=1" }
     "/usr/bin/python3" "/tmp/vox.py").1 (by decide)⟩

/-- Counterexample for C4 as stated: a `bash`-tagged block is in the
executable set and is handed to the sandbox, but the spawned child is
the Python interpreter on the temp file — not `bash` or `sh` — and the
script written is the Python harness wrapping, not the raw shell
source. Shell-family snippets are not interpreted as shell. -/
theorem bash_block_not_run_as_shell :
    EXEC_LANGS.contains (blockLang { language := "bash", content := "echo hi" }) = true ∧
    (processBlock wExec { language := "bash", content := "echo hi" }).2 = ["echo hi"] ∧
    sandboxArgv "/usr/bin/python3" "/tmp/vox.py" = ["/usr/bin/python3", "/tmp/vox.py"] ∧
    ¬ "/usr/bin/python3" = "bash" ∧ ¬ "/usr/bin/python3" = "sh" ∧
    ¬ scriptFor "echo hi" = "echo hi" := by
  decide

/- ### C5: transcription errors and the `end` handler -/

/-- The `end` handler calls the agent exactly when the stripped
concatenated transcript is non-empty (also when the call then fails). -/
theorem handleEnd_agentCalled (t : Totals) (exec : String → ExecResult)
    (mins : ℚ) (parts : List String) (ag : AgentCall) :
    ((handleEnd t exec { mins := mins, parts := parts, agent := ag }).agentCalled = true ↔
      ¬ pytrim (String.mk (joinWith [] (parts.map String.data))) = "") := by
  by_cases h : pytrim (String.mk (joinWith [] (parts.map String.data))) = ""
  · simp [handleEnd, h]
  · cases ag <;> simp [handleEnd, h]

/-- Counterexample for C5 as stated: a delta `"hi"` arrives, then the
service reports a terminal error. The consumer surfaces the error
status frame, yet handling `end` still invokes the assistant on the
partial transcript. -/
theorem transcription_error_still_generates :
    (runTranscription [TEvent.delta "hi", TEvent.terminalError "boom"]).1 = ["hi"] ∧
    (runTranscription [TEvent.delta "hi", TEvent.terminalError "boom"]).2 =
      [Frame.transcriptDelta "hi",
       Frame.status "error" "Realtime transcription error: boom"] ∧
    (handleEnd initTotals wExec
      { mins := 1, parts := ["hi"], agent := AgentCall.ok { text := "ok" } }).agentCalled
      = true := by
  refine ⟨by decide, by decide, ?_⟩
  rw [handleEnd_agentCalled]
  decide

/-- C5 (amended): when the transcription service reports a terminal
error mid-stream, the consumer task surfaces a session-visible `error`
status frame at that moment and stops, keeping the deltas already
emitted; handling `end` then proceeds normally — the assistant is
invoked if and only if the stripped concatenation of the partial deltas
is non-empty (only an empty partial transcript returns to idle without
an assistant call). -/
theorem transcription_error_amended (pre rest : List TEvent) (msg : String)
    (hpre : noTerminalError pre = true)
    (t : Totals) (exec : String → ExecResult) (mins : ℚ) (ag : AgentCall) :
    (runTranscription (pre ++ TEvent.terminalError msg :: rest)).1 = nonEmptyDeltas pre ∧
    (runTranscription (pre ++ TEvent.terminalError msg :: rest)).2 =
      (nonEmptyDeltas pre).map Frame.transcriptDelta ++
        [Frame.status "error" ("Realtime transcription error: " ++ msg)] ∧
    ((handleEnd t exec
        { mins := mins, parts := nonEmptyDeltas pre, agent := ag }).agentCalled = true ↔
      ¬ pytrim (String.mk (joinWith []
          ((nonEmptyDeltas pre).map String.data))) = "") := by
  refine ⟨?_, ?_, handleEnd_agentCalled t exec mins (nonEmptyDeltas pre) ag⟩
  · induction pre with
    | nil => simp [runTranscription, nonEmptyDeltas]
    | cons e pre ih =>
      cases e with
      | delta s =>
        by_cases hs : s = ""
        · simpa [runTranscription, nonEmptyDeltas, hs] using ih (by simpa [noTerminalError] using hpre)
        · simpa [runTranscription, nonEmptyDeltas, hs] using ih (by simpa [noTerminalError] using hpre)
      | terminalError m => simp [noTerminalError] at hpre
      | other => simpa [runTranscription, nonEmptyDeltas] using ih (by simpa [noTerminalError] using hpre)
  · induction pre with
    | nil => simp [runTranscription, nonEmptyDeltas]
    | cons e pre ih =>
      cases e with
      | delta s =>
        by_cases hs : s = ""
        · simpa [runTranscription, nonEmptyDeltas, hs] using ih (by simpa [noTerminalError] using hpre)
        · simpa [runTranscription, nonEmptyDeltas, hs] using ih (by simpa [noTerminalError] using hpre)
      | terminalError m => simp [noTerminalError] at hpre
      | other => simpa [runTranscription, nonEmptyDeltas] using ih (by simpa [noTerminalError] using hpre)

/-- Witness for C5 (amended): one delta `"hi"`, then a terminal error. -/
theorem transcription_error_amended_witness :
    noTerminalError [TEvent.delta "hi"] = true ∧
    ((runTranscription ([TEvent.delta "hi"] ++ TEvent.terminalError "boom" :: [])).1 =
      nonEmptyDeltas [TEvent.delta "hi"] ∧
     (runTranscription ([TEvent.delta "hi"] ++ TEvent.terminalError "boom" :: [])).2 =
      (nonEmptyDeltas [TEvent.delta "hi"]).map Frame.transcriptDelta ++
        [Frame.status "error" ("Realtime transcription error: " ++ "boom")] ∧
     ((handleEnd initTotals wExec
        { mins := 1, parts := nonEmptyDeltas [TEvent.delta "hi"]
        , agent := AgentCall.fail "net" }).agentCalled = true ↔
      ¬ pytrim (String.mk (joinWith []
          ((nonEmptyDeltas [TEvent.delta "hi"]).map String.data))) = "")) :=
  ⟨by decide,
   transcription_error_amended [TEvent.delta "hi"] [] "boom" (by decide)
     initTotals wExec 1 (AgentCall.fail "net")⟩

/- ### C6: the empty-transcript path -/

/-- C6: a recording whose accumulated transcript strips to the empty
string produces exactly the "No speech detected" ready status and one
cost frame whose request part carries the audio cost
`minutes × per-minute price` with every token, execution and agent-cost
component zero, and no assistant call is issued. -/
theorem no_speech_zero_cost (t : Totals) (exec : String → ExecResult) (mins : ℚ)
    (parts : List String) (ag : AgentCall)
    (h : pytrim (String.mk (joinWith [] (parts.map String.data))) = "") :
    (handleEnd t exec { mins := mins, parts := parts, agent := ag }).agentCalled = false ∧
    (handleEnd t exec { mins := mins, parts := parts, agent := ag }).frames =
      [ Frame.status "ready" "No speech detected"
      , Frame.cost
          { audio_sec := mins * 60, input_tokens := 0, output_tokens := 0
          , code_executions := 0, stt_cost := mins * PRICE_STT_PER_MIN
          , agent_cost_in := 0, agent_cost_out := 0, exec_cost := 0
          , total := mins * PRICE_STT_PER_MIN }
          (sessSnapshot { t with
             audio_minutes := t.audio_minutes + mins
             stt_cost := t.stt_cost + mins * PRICE_STT_PER_MIN }) ] := by
  constructor
  · simp [handleEnd, h]
  · simp [handleEnd, h]

/-- Witness for C6: a two-minute recording whose only delta is
whitespace. -/
theorem no_speech_zero_cost_witness :
    pytrim (String.mk (joinWith [] ((["  "] : List String).map String.data))) = "" ∧
    ((handleEnd initTotals wExec
        { mins := 2, parts := ["  "], agent := AgentCall.ok {} }).agentCalled = false ∧
     (handleEnd initTotals wExec
        { mins := 2, parts := ["  "], agent := AgentCall.ok {} }).frames =
      [ Frame.status "ready" "No speech detected"
      , Frame.cost
          { audio_sec := 2 * 60, input_tokens := 0, output_tokens := 0
          , code_executions := 0, stt_cost := 2 * PRICE_STT_PER_MIN
          , agent_cost_in := 0, agent_cost_out := 0, exec_cost := 0
          , total := 2 * PRICE_STT_PER_MIN }
          (sessSnapshot { initTotals with
             audio_minutes := initTotals.audio_minutes + 2
             stt_cost := initTotals.stt_cost + 2 * PRICE_STT_PER_MIN }) ]) :=
  ⟨by decide,
   no_speech_zero_cost initTotals wExec 2 ["  "] (AgentCall.ok {}) (by decide)⟩

/- ### C7: cumulative cost consistency -/

/-- C7 (code bug): in a session whose single recording is a one-minute
span with no detected speech, the only cost frame reports a request
total of `0.006` (= 3/500) but a session total of `0` — the cumulative
total is not the sum of the request totals of the frames sent, because
`totals["total_cost"]` is not recomputed on the no-speech path. -/
theorem cost_total_stale_on_no_speech :
    costPairs (runSession wExec
      [{ mins := 1, parts := [], agent := AgentCall.ok {} }]).2 =
      [((3 : ℚ) / 500, 0)] ∧
    ¬ ((3 : ℚ) / 500 = 0) := by
  constructor
  · simp +decide [runSession, handleEnd, costPairs, sessSnapshot, initTotals,
      PRICE_STT_PER_MIN]
    norm_num
  · norm_num

/- ### Helper lemmas for the fenced-block scanner -/

/-- Prefix testing only inspects the first `p.length` elements. -/
theorem isPrefixOf_append_left (p l m : List Char) (h : p.length ≤ l.length) :
    p.isPrefixOf (l ++ m) = p.isPrefixOf l := by
  induction p generalizing l with
  | nil => simp [List.isPrefixOf]
  | cons a as ih =>
    cases l with
    | nil => simp at h
    | cons x xs =>
      simp only [List.cons_append, List.isPrefixOf]
      rw [show xs.append m = xs ++ m from rfl, ih xs (by simpa using h)]

/-- A list is a Boolean prefix of itself extended by anything. -/
theorem isPrefixOf_self_append (p m : List Char) : p.isPrefixOf (p ++ m) = true := by
  induction p with
  | nil => simp [List.isPrefixOf]
  | cons a as ih => simp [List.isPrefixOf, ih]

/-- For a `cleanBody` list, the first closing fence after it is the one
appended behind it. -/
theorem splitAtFence_append (l r : List Char) (h : cleanBody l = true) :
    splitAtFence (l ++ (fenceL ++ r)) = some (l, r) := by
  induction l with
  | nil =>
    have hstep : fenceL ++ r = btick :: btick :: btick :: r := by simp [fenceL]
    simp only [List.nil_append, hstep]
    rw [splitAtFence]
    have hc : fenceL.isPrefixOf (btick :: btick :: btick :: r) = true := by
      have := isPrefixOf_self_append fenceL r
      simpa [fenceL] using this
    simp [hc, fenceL]
  | cons x xs ih =>
    have h' : fenceL.isPrefixOf ((x :: xs) ++ fenceL) = false ∧ cleanBody xs = true := by
      have hh := h
      simp only [cleanBody, Bool.and_eq_true, Bool.not_eq_true'] at hh
      exact hh
    have hcond : fenceL.isPrefixOf (x :: (xs ++ (fenceL ++ r))) = false := by
      have hshape : x :: (xs ++ (fenceL ++ r)) = ((x :: xs) ++ fenceL) ++ r := by
        simp [List.append_assoc]
      rw [hshape, isPrefixOf_append_left _ _ _ (by simp [fenceL])]
      exact h'.1
    have := ih h'.2
    rw [List.cons_append, splitAtFence]
    simp only [hcond, Bool.false_eq_true, if_false]
    rw [this]

/-- A fence-free list closed off by a newline satisfies `cleanBody`:
no suffix, extended by a following fence, starts with a fence. -/
theorem cleanBody_append_nl (l : List Char) (h : containsSub fenceL l = false) :
    cleanBody (l ++ [nlc]) = true := by
  induction l with
  | nil => decide
  | cons x xs ih =>
    have h' : fenceL.isPrefixOf (x :: xs) = false ∧ containsSub fenceL xs = false := by
      have hh := h
      simp only [containsSub, Bool.or_eq_false_iff] at hh
      exact hh
    have hrest := ih h'.2
    have hfirst : fenceL.isPrefixOf ((x :: (xs ++ [nlc])) ++ fenceL) = false := by
      match xs with
      | [] =>
        have hnl : (btick == nlc) = false := by decide
        simp [fenceL, List.isPrefixOf, hnl]
      | [y] =>
        have hnl : (btick == nlc) = false := by decide
        simp [fenceL, List.isPrefixOf, hnl]
      | y :: z :: zs =>
        have hshape : (x :: ((y :: z :: zs) ++ [nlc])) ++ fenceL =
            (x :: y :: z :: zs) ++ ([nlc] ++ fenceL) := by
          simp [List.append_assoc]
        rw [hshape, isPrefixOf_append_left _ _ _ (by simp [fenceL])]
        exact h'.1
    simp only [List.cons_append, cleanBody, Bool.and_eq_true, Bool.not_eq_true']
    exact ⟨by simpa using hfirst, hrest⟩

/-- `dropWhile` preserves the absence of a pattern. -/
theorem containsSub_dropWhile (p : Char → Bool) (pat l : List Char)
    (h : containsSub pat l = false) : containsSub pat (l.dropWhile p) = false := by
  induction l with
  | nil => simpa using h
  | cons x xs ih =>
    have h' : pat.isPrefixOf (x :: xs) = false ∧ containsSub pat xs = false := by
      have hh := h
      simp only [containsSub, Bool.or_eq_false_iff] at hh
      exact hh
    rw [List.dropWhile_cons]
    by_cases hp : p x
    · simp only [hp, if_true]
      exact ih h'.2
    · simp only [hp, Bool.false_eq_true, if_false, containsSub, Bool.or_eq_false_iff]
      exact h'

/-- The head of a non-empty `dropWhile` result fails the predicate. -/
theorem dropWhile_head_false (p : Char → Bool) (l : List Char) (x : Char)
    (xs : List Char) (h : l.dropWhile p = x :: xs) : p x = false := by
  induction l with
  | nil => simp at h
  | cons c cs ih =>
    rw [List.dropWhile_cons] at h
    by_cases hp : p c
    · simp only [hp, if_true] at h
      exact ih h
    · simp only [hp, Bool.false_eq_true, if_false] at h
      cases h
      cases hval : p x
      · rfl
      · exact absurd hval (by simpa using hp)

/-- Stripping the whitespace-dropped body plus a trailing newline equals
stripping the original. -/
theorem trimChars_dropWhile_nl (l : List Char) :
    trimChars (l.dropWhile isWS ++ [nlc]) = trimChars l := by
  unfold trimChars
  rcases hd : l.dropWhile isWS with _ | ⟨e, es⟩
  · decide
  · have he : isWS e = false := dropWhile_head_false isWS l e es hd
    have h1 : ((e :: es) ++ [nlc]).dropWhile isWS = (e :: es) ++ [nlc] := by
      rw [List.cons_append, List.dropWhile_cons]
      simp [he]
    rw [h1]
    have h3 : ((e :: es) ++ [nlc]).reverse = nlc :: (e :: es).reverse := by
      simp
    rw [h3, List.dropWhile_cons]
    have hnl : isWS nlc = true := by decide
    simp [hnl]

/-- Any fuel evaluates the empty scan to no blocks. -/
theorem scanBlocksFuel_nil (fuel : Nat) : scanBlocksFuel fuel [] = [] := by
  cases fuel <;> rfl

/-- The scan of one untagged fenced block: the tag capture is empty and
the body capture strips to the same text as the raw content. -/
theorem scanBlocks_single (cd : List Char) (hc : containsSub fenceL cd = false) :
    ∃ body : String,
      scanBlocks (fenceL ++ nlc :: cd ++ nlc :: fenceL) = [("", body)] ∧
      pytrim body = pytrim (String.mk cd) := by
  have hlen : (fenceL ++ nlc :: cd ++ nlc :: fenceL).length + 1 = (cd.length + 8) + 1 := by
    simp [fenceL]
  have hcons : fenceL ++ nlc :: cd ++ nlc :: fenceL =
      btick :: btick :: btick :: (nlc :: cd ++ nlc :: fenceL) := by
    simp [fenceL]
  have hpre : fenceL.isPrefixOf (btick :: btick :: btick :: (nlc :: cd ++ nlc :: fenceL))
      = true := by
    have := isPrefixOf_self_append fenceL (nlc :: cd ++ nlc :: fenceL)
    simpa [fenceL] using this
  have hword : isWordChar nlc = false := by decide
  have hwsnl : isWS nlc = true := by decide
  unfold scanBlocks
  rw [hlen, hcons]
  rw [scanBlocksFuel]
  simp only [hpre, if_true]
  have hdrop : (btick :: btick :: btick :: (nlc :: cd ++ nlc :: fenceL)).drop fenceL.length
      = nlc :: cd ++ nlc :: fenceL := by
    simp [fenceL]
  rw [hdrop]
  have htake : (nlc :: cd ++ nlc :: fenceL).takeWhile isWordChar = [] := by
    rw [List.cons_append, List.takeWhile_cons]
    simp [hword]
  rw [htake]
  simp only [List.length_nil, List.drop_zero]
  have hdropws : (nlc :: cd ++ nlc :: fenceL).dropWhile isWS =
      (cd ++ [nlc] ++ fenceL).dropWhile isWS := by
    rw [List.cons_append, List.dropWhile_cons]
    simp [hwsnl, List.append_assoc]
  rw [hdropws]
  rcases hbody : cd.dropWhile isWS with _ | ⟨e, es⟩
  · -- all-whitespace content: the scanner finds the empty body
    have hws : (cd ++ [nlc] ++ fenceL).dropWhile isWS = fenceL := by
      rw [List.append_assoc, List.dropWhile_append]
      simp only [hbody, List.isEmpty_nil, if_true]
      rw [show [nlc] ++ fenceL = nlc :: fenceL by simp, List.dropWhile_cons]
      simp only [hwsnl, if_true]
      decide
    rw [hws]
    have hsplit : splitAtFence fenceL = some ([], []) := by
      have := splitAtFence_append [] [] (by decide)
      simpa using this
    rw [hsplit]
    refine ⟨"", by simp [scanBlocksFuel_nil], ?_⟩
    have : trimChars cd = [] := by
      unfold trimChars
      rw [hbody]
      decide
    simp [pytrim, this]
    decide
  · -- non-whitespace content: the body is the dropped content plus `\n`
    have hne : ¬ (cd.dropWhile isWS).isEmpty = true := by
      rw [hbody]
      simp
    have hws : (cd ++ [nlc] ++ fenceL).dropWhile isWS =
        (cd.dropWhile isWS ++ [nlc]) ++ fenceL := by
      rw [List.append_assoc, List.dropWhile_append]
      simp only [hne, if_false]
      rw [hbody]
      simp [List.append_assoc]
    rw [hws]
    have hclean : cleanBody (cd.dropWhile isWS ++ [nlc]) = true :=
      cleanBody_append_nl _ (containsSub_dropWhile isWS fenceL cd hc)
    have hsplit : splitAtFence ((cd.dropWhile isWS ++ [nlc]) ++ fenceL) =
        some (cd.dropWhile isWS ++ [nlc], []) := by
      have := splitAtFence_append (cd.dropWhile isWS ++ [nlc]) [] hclean
      simpa using this
    rw [hsplit]
    refine ⟨String.mk (cd.dropWhile isWS ++ [nlc]), by simp [scanBlocksFuel_nil], ?_⟩
    show String.mk (trimChars (cd.dropWhile isWS ++ [nlc])) = String.mk (trimChars cd)
    rw [trimChars_dropWhile_nl]

/- ### C10: classification of untagged fenced blocks -/

/-- C10: an untagged fenced block is classified `html` exactly when its
stripped content contains `<html>` or `<div>` case-insensitively, and
`python` otherwise — `python` is in the executable set while `html` is
not — and a block whose content equals an already-collected block's
content is not added a second time. -/
theorem untagged_block_classified (init : List CodeBlock) (code : String)
    (hc : containsSub fenceL code.data = false) :
    parseTextBlocks init (String.mk (fenceL ++ nlc :: code.data ++ nlc :: fenceL)) =
      (if init.any (fun b => b.content == pytrim code) then init
       else init ++
         [{ language := if hasHtmlMarker (pytrim code) then "html" else "python"
          , content := pytrim code }]) ∧
    EXEC_LANGS.contains "python" = true ∧ EXEC_LANGS.contains "html" = false := by
  obtain ⟨body, hscan, hbody⟩ := scanBlocks_single code.data hc
  refine ⟨?_, by decide, by decide⟩
  unfold parseTextBlocks
  rw [show (String.mk (fenceL ++ nlc :: code.data ++ nlc :: fenceL)).data =
    fenceL ++ nlc :: code.data ++ nlc :: fenceL from rfl]
  rw [hscan]
  have hcodeeq : pytrim body = pytrim code := by
    rw [hbody]
  simp only [List.foldl_cons, List.foldl_nil, classifyAndAdd]
  rw [show lowerStr "" = "" from rfl, hcodeeq]
  simp

/-- Witness for C10: the untagged block body `print(1)` contains no
HTML marker and becomes an executable `python` block. -/
theorem untagged_block_classified_witness :
    containsSub fenceL ("print(1)").data = false ∧
    (parseTextBlocks []
        (String.mk (fenceL ++ nlc :: ("print(1)").data ++ nlc :: fenceL)) =
      (if ([] : List CodeBlock).any (fun b => b.content == pytrim "print(1)") then
        ([] : List CodeBlock)
       else [] ++
         [{ language := if hasHtmlMarker (pytrim "print(1)") then "html" else "python"
          , content := pytrim "print(1)" }]) ∧
     EXEC_LANGS.contains "python" = true ∧ EXEC_LANGS.contains "html" = false) :=
  ⟨by decide, untagged_block_classified [] "print(1)" (by decide)⟩

end VoxCoder
